import Mathlib

/-!
Verification development for the cockpit-container-apps frontend.

This file gives a shallow embedding, in Lean 4, of the parts of the
TypeScript frontend that the specification talks about:

* `src/frontend/src/utils/routing.ts` — URL parse/build (router states);
* `src/frontend/src/context/AppContext.tsx` — the client-side package
  cache and filter, and the request-sequencing guard for store fetches;
* `src/frontend/src/components/ConfigForm.tsx` — the configuration-form
  engine (default merging, validation, save gating);
* `src/frontend/src/api/index.ts` — the command gateway (argument
  encoding, the `settled` guard of `executeCommand`, and the streaming
  line handler of `installPackage` / `removePackage`).

JavaScript idioms are translated explicitly: string truthiness becomes
a non-emptiness test (`optTruthy` / emptiness checks), `undefined` and
`null` become `Option` layers, `x ?? y` becomes `Option.orElse`, and
JSON parsing of externally produced text is abstracted into already
classified values (an unparseable line or document is a dedicated
constructor), since the JSON grammar itself is outside the verified
code.  Machine integers are modelled as `Int` / `Nat`.
-/

namespace CCApps

/-- JS truthiness of an optional string: present and non-empty. -/
def optTruthy : Option String → Bool
  | none => false
  | some s => !s.isEmpty

/-- Translation of the condition `value.trim() === ''`: every character
of the string is whitespace (true as well for the empty string). -/
def allWhitespace (s : String) : Bool :=
  s.data.all Char.isWhitespace

/-! ## Routing data model (`src/frontend/src/utils/routing.ts`) -/

/-- `type Route = 'store' | 'category' | 'app'`. -/
inductive Route where
  | store
  | category
  | app
deriving DecidableEq, Repr

/-- `'all' | 'available' | 'installed'` install filter. -/
inductive InstallFilter where
  | all
  | available
  | installed
deriving DecidableEq, Repr

/-- The string value of an install filter, as written to query params. -/
def InstallFilter.asString : InstallFilter → String
  | .all => "all"
  | .available => "available"
  | .installed => "installed"

/-- `Package` from `src/frontend/src/api/types.ts` (all declared fields;
optional ones as `Option`). -/
structure Package where
  name : String
  version : String
  summary : String
  «section» : String
  installed : Bool
  upgradable : Bool
  categories : List String
  repository_id : Option String := none
  installedVersion : Option String := none
  candidateVersion : Option String := none
deriving DecidableEq, Repr

/-- `RouterState` from routing.ts: all fields beyond `route` are
optional (`Option`); `selectedPackage?: Package | null` carries two
levels of optionality (absent vs present-but-null). -/
structure RouterState where
  route : Route
  selectedPackage : Option (Option Package) := none
  selectedCategory : Option String := none
  appName : Option String := none
  storeId : Option String := none
  installFilter : Option InstallFilter := none
deriving DecidableEq, Repr

/-- A query-parameter value: `string | string[]`. -/
inductive QueryValue where
  | str (s : String)
  | arr (l : List String)
deriving DecidableEq, Repr

/-- `RouterLocation`: Cockpit location of path segments plus options. -/
structure RouterLocation where
  path : List String
  options : List (String × QueryValue)
deriving DecidableEq, Repr

/-- The base `{ route: 'store' }` state. -/
def storeState : RouterState := { route := .store }

/-- `{ route: 'category', selectedCategory: id }`. -/
def categoryState (id : String) : RouterState :=
  { route := .category, selectedCategory := some id }

/-- `{ route: 'app', selectedPackage: null, appName: name }`. -/
def appState (name : String) : RouterState :=
  { route := .app, selectedPackage := some none, appName := some name }

/-- `parseLocationToRouter` (routing.ts lines 50–94).  Destructuring
`const [segment1, segment2] = path` reads the first two segments and
ignores the rest; `segment2` is `undefined` when the path has a single
segment, and the `&& segment2` guards are JS truthiness (defined and
non-empty). -/
def parseLocationToRouter (loc : RouterLocation) : RouterState :=
  match loc.path with
  | [] => storeState
  | seg1 :: rest =>
    let seg2 : Option String := rest.head?
    if seg1 = "category" ∧ optTruthy seg2 then
      categoryState (seg2.getD "")
    else if seg1 = "app" ∧ optTruthy seg2 then
      appState (seg2.getD "")
    else
      storeState

/-- `buildLocationFromRouter` (routing.ts lines 104–145).  The `store`
query option is added when `storeId` is truthy; the `filter` option when
`installFilter` is truthy and not `'all'`.  A `category` state whose
`selectedCategory` is absent or empty, and an `app` state whose
`selectedPackage` is absent or null, fall back to the store path. -/
def buildLocationFromRouter (router : RouterState) (storeId : Option String := none)
    (instFilter : Option InstallFilter := none) : RouterLocation :=
  let options : List (String × QueryValue) :=
    (if optTruthy storeId then [("store", QueryValue.str (storeId.getD ""))] else []) ++
    (match instFilter with
     | some f => if f ≠ .all then [("filter", QueryValue.str f.asString)] else []
     | none => [])
  match router.route with
  | .category =>
    match router.selectedCategory with
    | some c => if !c.isEmpty then ⟨["category", c], options⟩ else ⟨[], options⟩
    | none => ⟨[], options⟩
  | .app =>
    match router.selectedPackage with
    | some (some p) => ⟨["app", p.name], options⟩
    | _ => ⟨[], options⟩
  | .store => ⟨[], options⟩

/-- The parse rule exactly as claim C6 words it: the empty path maps to
store, exactly `["category", id]` to category, exactly `["app", name]`
to app, and every other shape (extra or missing segments included) to
store. -/
def claimParseExact (loc : RouterLocation) : RouterState :=
  match loc.path with
  | [] => storeState
  | ["category", id] => categoryState id
  | ["app", name] => appState name
  | _ => storeState

/-! ## Client-side package cache and filter
(`src/frontend/src/context/AppContext.tsx`) -/

/-- `sub` is a leading segment of `s` (character lists). -/
def leadsWith : List Char → List Char → Bool
  | [], _ => true
  | _ :: _, [] => false
  | a :: as, b :: bs => a = b && leadsWith as bs

/-- JS `s.includes(sub)` on character lists: `sub` occurs contiguously
somewhere in `s`. -/
def containsSeq : List Char → List Char → Bool
  | s, sub =>
    match s with
    | [] => leadsWith sub []
    | _ :: t => leadsWith sub s || containsSeq t sub

/-- JS `s.includes(sub)` on strings. -/
def strIncludes (s sub : String) : Bool :=
  containsSeq s.data sub.data

/-- `Category` from `src/frontend/src/api/types.ts`. -/
structure Category where
  id : String
  label : String
  icon : Option String := none
  description : Option String := none
  count : Int
  count_all : Int
  count_available : Int
  count_installed : Int
deriving DecidableEq, Repr

/-- `'installed' | 'upgradable'` tab parameter of `filter-packages`. -/
inductive TabKind where
  | installed
  | upgradable
deriving DecidableEq, Repr

/-- `FilterParams` from `src/frontend/src/api/types.ts`. -/
structure FilterParams where
  store_id : Option String := none
  repository_id : Option String := none
  category_id : Option String := none
  tab : Option TabKind := none
  search_query : Option String := none
  limit : Option Nat := none
deriving DecidableEq, Repr

/-- `filterPackagesClientSide` (AppContext.tsx lines 158–190): filter by
install status, then by a case-insensitive substring match of the search
query (lower-cased and trimmed) against name or summary.  Category
filtering is deliberately absent — the source comment says it is handled
server-side because it needs debtags not present on `Package`. -/
def filterPackagesClientSide (packages : List Package)
    (instFilter : InstallFilter) (searchQuery : String) : List Package :=
  let filtered :=
    match instFilter with
    | .available => packages.filter (fun p => !p.installed)
    | .installed => packages.filter (fun p => p.installed)
    | .all => packages
  if !searchQuery.isEmpty ∧ !allWhitespace searchQuery then
    let query := searchQuery.toLower.trim
    filtered.filter (fun p =>
      strIncludes p.name.toLower query || strIncludes p.summary.toLower query)
  else
    filtered

/-- The slice of `AppState` (AppContext.tsx lines 30–53) that the
modelled actions read and write. -/
structure AppStateM where
  packages : List Package
  allPackages : List Package
  categories : List Category
  activeStore : Option String
  activeCategory : Option String
  installFilter : InstallFilter
  searchQuery : String
  totalPackageCount : Nat
  limitedResults : Bool
  packagesLoading : Bool
  packagesError : Option String
deriving DecidableEq, Repr

/-- What a call to `loadPackages` (AppContext.tsx lines 200–313) does:
either an in-process client-side derivation from the cache, or one of
the two backend calls (`get-store-data`, `filter-packages`). -/
inductive LoadAction where
  | clientSide (newPackages : List Package)
  | fetchStore (storeId : String)
  | fetchFiltered (params : FilterParams)
deriving DecidableEq, Repr

/-- True when the action spawns a backend process. -/
def LoadAction.isBackendCall : LoadAction → Bool
  | .clientSide _ => false
  | .fetchStore _ => true
  | .fetchFiltered _ => true

/-- `const storeId = params?.store_id ?? prev.activeStore`. -/
def effectiveStoreId (prev : AppStateM) (params : Option FilterParams) : Option String :=
  (params.bind (·.store_id)).orElse (fun _ => prev.activeStore)

/-- `const categoryId = params?.category_id ?? prev.activeCategory`. -/
def effectiveCategoryId (prev : AppStateM) (params : Option FilterParams) : Option String :=
  (params.bind (·.category_id)).orElse (fun _ => prev.activeCategory)

/-- The branch logic of `loadPackages`: with a warm cache, the same
store, and no category, filter the cache client-side; with a store and
no category, fetch consolidated store data; otherwise fall back to the
backend `filter-packages` call (category loads always take this path). -/
def loadPackagesAction (prev : AppStateM) (params : Option FilterParams) : LoadAction :=
  let storeId : Option String := effectiveStoreId prev params
  let categoryId : Option String := effectiveCategoryId prev params
  if prev.allPackages ≠ [] ∧ storeId = prev.activeStore ∧ ¬optTruthy categoryId then
    .clientSide (filterPackagesClientSide prev.allPackages prev.installFilter prev.searchQuery)
  else if optTruthy storeId ∧ ¬optTruthy categoryId then
    .fetchStore (storeId.getD "")
  else
    let tabFilter : Option TabKind :=
      if prev.installFilter = .installed then some .installed else none
    .fetchFiltered
      { store_id := storeId
        category_id := categoryId
        tab := (params.bind (·.tab)).orElse (fun _ => tabFilter)
        search_query := if !prev.searchQuery.isEmpty then some prev.searchQuery else none
        limit := some ((params.bind (·.limit)).getD 1000) }

/-- `setInstallFilter` (AppContext.tsx lines 341–367): with a warm cache
and no active category the new filtered view is derived client-side;
otherwise only the filter value changes.  The boolean reports whether
the update was answered client-side. -/
def setInstallFilterAction (prev : AppStateM) (filter : InstallFilter) :
    AppStateM × Bool :=
  if prev.allPackages ≠ [] ∧ ¬optTruthy prev.activeCategory then
    let filtered := filterPackagesClientSide prev.allPackages filter prev.searchQuery
    ({ prev with
        installFilter := filter
        packages := filtered
        totalPackageCount := filtered.length }, true)
  else
    ({ prev with installFilter := filter }, false)

/-- `setSearchQuery` (AppContext.tsx lines 371–407): with a warm cache
and no active category the new filtered view is derived client-side;
otherwise the query is stored and a debounced backend `loadPackages` is
scheduled.  The boolean reports whether the update was client-side (no
scheduled backend call). -/
def setSearchQueryAction (prev : AppStateM) (query : String) :
    AppStateM × Bool :=
  if prev.allPackages ≠ [] ∧ ¬optTruthy prev.activeCategory then
    let filtered := filterPackagesClientSide prev.allPackages prev.installFilter query
    ({ prev with
        searchQuery := query
        packages := filtered
        totalPackageCount := filtered.length }, true)
  else
    ({ prev with searchQuery := query }, false)

/-! ## Request-sequencing guard for store-level fetches
(AppContext.tsx line 115 `loadRequestId` and lines 227–265,
the `getStoreData` path of `loadPackages`) -/

/-- `store` object of `GetStoreDataResponse`. -/
structure StoreLite where
  id : String
  name : String
  description : Option String := none
  icon : Option String := none
  banner : Option String := none
deriving DecidableEq, Repr

/-- `GetStoreDataResponse` from `src/frontend/src/api/types.ts`. -/
structure GetStoreDataResponse where
  store : StoreLite
  packages : List Package
  categories : List Category
deriving DecidableEq, Repr

/-- The mutable context around store-level fetches: the `loadRequestId`
ref plus the application state. -/
structure StoreFetchState where
  latestId : Nat
  appState : AppStateM
deriving DecidableEq, Repr

/-- Issuing a store-level fetch: `const requestId = ++loadRequestId.current`
tags the fetch with the incremented id, and the surrounding `setState`
marks packages as loading.  Returns the tag and the new context. -/
def issueStoreFetch (s : StoreFetchState) : Nat × StoreFetchState :=
  let rid := s.latestId + 1
  (rid,
   { latestId := rid
     appState := { s.appState with packagesLoading := true, packagesError := none } })

/-- The `.then` handler of `getStoreData` (AppContext.tsx lines 230–252):
a response whose tag is not the latest issued id is discarded; otherwise
the cache, categories and filtered view are applied.  `capturedFilter`
and `capturedSearch` are the values of `prev.installFilter` and
`prev.searchQuery` captured by the closure at issue time. -/
def respondStoreSuccess (s : StoreFetchState) (rid : Nat)
    (resp : GetStoreDataResponse)
    (capturedFilter : InstallFilter) (capturedSearch : String) : StoreFetchState :=
  if rid ≠ s.latestId then s
  else
    let allPackages := resp.packages
    let filtered := filterPackagesClientSide allPackages capturedFilter capturedSearch
    { s with
        appState := { s.appState with
          allPackages := allPackages
          categories := resp.categories
          packages := filtered
          totalPackageCount := filtered.length
          limitedResults := false
          packagesLoading := false } }

/-- The `.catch` handler (AppContext.tsx lines 253–265): errors from
stale requests are likewise discarded. -/
def respondStoreFailure (s : StoreFetchState) (rid : Nat) (err : String) :
    StoreFetchState :=
  if rid ≠ s.latestId then s
  else
    { s with
        appState := { s.appState with
          packagesError := some err
          packagesLoading := false } }

/-! ## Configuration form engine
(`src/frontend/src/components/ConfigForm.tsx`) -/

/-- `FieldType` from `src/frontend/src/api/types.ts`. -/
inductive FieldType where
  | string
  | integer
  | boolean
  | enum
  | password
  | path
deriving DecidableEq, Repr

/-- `EnumOption` from `src/frontend/src/api/types.ts`. -/
structure EnumOption where
  value : String
  label : String
deriving DecidableEq, Repr

/-- `ConfigField` from `src/frontend/src/api/types.ts`. -/
structure ConfigField where
  id : String
  type : FieldType
  label : String
  description : Option String := none
  default : Option String := none
  required : Bool := false
  help : Option String := none
  min : Option Int := none
  max : Option Int := none
  options : Option (List EnumOption) := none
deriving DecidableEq, Repr

/-- `ConfigGroup` from `src/frontend/src/api/types.ts`. -/
structure ConfigGroup where
  id : String
  label : String
  description : Option String := none
  fields : List ConfigField
deriving DecidableEq, Repr

/-- `ConfigSchema` from `src/frontend/src/api/types.ts`. -/
structure ConfigSchema where
  version : String
  groups : List ConfigGroup
deriving DecidableEq, Repr

/-- `ConfigValues = Record<string, string>`, modelled as an association
list in insertion order (JS object keys are unique; lookup is by key). -/
abbrev ConfigValues := List (String × String)

/-- `values[k]` on the modelled record: the entry for `k`, if any. -/
def lookupCV (vs : ConfigValues) (k : String) : Option String :=
  match vs with
  | [] => none
  | (k', v) :: t => if k' = k then some v else lookupCV t k

/-- All fields of a schema, in group order then field order. -/
def schemaFields (schema : ConfigSchema) : List ConfigField :=
  schema.groups.foldr (fun g acc => g.fields ++ acc) []

/-- The keys of a modelled record, in insertion order. -/
def keysCV (vs : ConfigValues) : List String :=
  vs.map (·.1)

/-- One step of the default-merging loop: `if (values[field.id] ===
undefined && field.default !== undefined) values[field.id] = field.default`. -/
def mergeStep (vals : ConfigValues) (f : ConfigField) : ConfigValues :=
  if lookupCV vals f.id = none ∧ f.default ≠ none then
    vals ++ [(f.id, f.default.getD "")]
  else
    vals

/-- The `useState` initializer of `ConfigForm` (ConfigForm.tsx lines
43–53), which the spec calls `mergeDefaults`: start from a copy of
`config` and add each schema field's default for fields not present. -/
def mergeDefaults (config : ConfigValues) (schema : ConfigSchema) : ConfigValues :=
  schema.groups.foldl (fun vals g => g.fields.foldl mergeStep vals) config

/-- The ids of all fields of a schema, in schema order. -/
def fieldIds (schema : ConfigSchema) : List String :=
  (schemaFields schema).map (·.id)

/-- The strict signed-integer pattern `/^-?\d+$/` on a character list:
an optional leading minus sign followed by one or more decimal digits
and nothing else. -/
def strictIntPatternAux : List Char → Bool
  | [] => false
  | c :: rest =>
    if c = '-' then !rest.isEmpty && rest.all Char.isDigit
    else (c :: rest).all Char.isDigit

/-- The strict signed-integer pattern `/^-?\d+$/` on a string. -/
def strictIntPattern (s : String) : Bool :=
  strictIntPatternAux s.data

/-- Numeric value of a list of decimal digits. -/
def digitsToNat (l : List Char) : Nat :=
  l.foldl (fun n c => 10 * n + (c.toNat - 48)) 0

/-- `parseInt(value, 10)` on a string matching the strict pattern:
the exact signed decimal value. -/
def parseIntStrict (s : String) : Int :=
  match s.data with
  | '-' :: rest => -(digitsToNat rest : Int)
  | l => (digitsToNat l : Int)

/-- `validateField` (ConfigForm.tsx lines 73–121): required check, then
the per-type checks for integer, path and enum fields in source order.
Returns `some message` on the first failing check, `none` otherwise. -/
def validateField (f : ConfigField) (value : String) : Option String :=
  if f.required ∧ (value.isEmpty ∨ allWhitespace value) then
    some "This field is required"
  else if f.type = .integer ∧ !value.isEmpty ∧ !strictIntPattern value then
    some "Must be a valid integer"
  else if f.type = .integer ∧ !value.isEmpty ∧
      (match f.min with | some m => decide (parseIntStrict value < m) | none => false) = true then
    some ("Value must be at least " ++ toString (f.min.getD 0))
  else if f.type = .integer ∧ !value.isEmpty ∧
      (match f.max with | some m => decide (m < parseIntStrict value) | none => false) = true then
    some ("Value must be at most " ++ toString (f.max.getD 0))
  else if f.type = .path ∧ !value.isEmpty ∧ strIncludes value "../" then
    some "Invalid path: directory traversal detected"
  else if f.type = .enum ∧ !value.isEmpty ∧
      (match f.options with
       | some opts => !(opts.map (·.value)).contains value
       | none => false) = true then
    some ("Value must be one of: " ++
      String.intercalate ", " ((f.options.getD []).map (·.value)))
  else
    none

/-- `validateForm` (ConfigForm.tsx lines 126–140): validate every field
of every group against `formValues[field.id] || ''`, collecting the
error messages keyed by field id. -/
def validateForm (schema : ConfigSchema) (formValues : ConfigValues) :
    List (String × String) :=
  (schemaFields schema).foldl
    (fun errors f =>
      match validateField f ((lookupCV formValues f.id).getD "") with
      | some e => errors ++ [(f.id, e)]
      | none => errors)
    []

/-- The in-memory state of one `ConfigForm` instance: the current form
values and the surfaced per-field validation errors. -/
structure FormState where
  formValues : ConfigValues
  validationErrors : List (String × String)
deriving DecidableEq, Repr

/-- `handleSave` (ConfigForm.tsx lines 159–167): run full validation;
on any error set the per-field errors and return without calling
`onSave`; otherwise call `onSave` with the current values.  The
`Option ConfigValues` result is the payload passed to `onSave`
(`none` when `onSave` was not called). -/
def handleSave (schema : ConfigSchema) (st : FormState) :
    FormState × Option ConfigValues :=
  let errors := validateForm schema st.formValues
  if errors ≠ [] then
    ({ st with validationErrors := errors }, none)
  else
    (st, some st.formValues)

/-! ## Command gateway argument encoding
(`src/frontend/src/api/index.ts`, most recent revision: `listCategories`
lines 347–361 and `filterPackages` lines 394–420) -/

/-- `TabKind.asString`: the string written into the `--tab=` token. -/
def TabKind.asString : TabKind → String
  | .installed => "installed"
  | .upgradable => "upgradable"

/-- Argument list built by `listCategories`: one `--store=<id>` token
when a store id is provided (truthy), nothing otherwise. -/
def listCategoriesArgs (storeId : Option String) : List String :=
  if optTruthy storeId then ["--store=" ++ storeId.getD ""] else []

/-- Argument list built by `filterPackages`: for each provided
parameter one single `--key=value` token, in source order.  String
parameters are guarded by truthiness; `limit` by `!== undefined`. -/
def filterPackagesArgs (params : FilterParams) : List String :=
  (if optTruthy params.store_id then ["--store=" ++ params.store_id.getD ""] else []) ++
  (if optTruthy params.repository_id then ["--repo=" ++ params.repository_id.getD ""] else []) ++
  (if optTruthy params.category_id then ["--category=" ++ params.category_id.getD ""] else []) ++
  (match params.tab with
   | some t => ["--tab=" ++ t.asString]
   | none => []) ++
  (if optTruthy params.search_query then ["--search=" ++ params.search_query.getD ""] else []) ++
  (match params.limit with
   | some n => ["--limit=" ++ toString n]
   | none => [])

/-! ## `executeCommand` settlement guard
(`src/frontend/src/api/index.ts` lines 33–119) -/

/-- A parsed request/response JSON document as the handlers read it:
the `error`, `code` and `details` keys. -/
structure ExecResponse where
  error : Option String := none
  code : Option String := none
  details : Option String := none
deriving DecidableEq, Repr

/-- How the promise of `executeCommand` is settled. -/
inductive ExecOutcome where
  | success
  | apiError (message : String) (code : Option String) (details : Option String)
  | parseError
  | timeoutError
  | commandFailed (message : String)
deriving DecidableEq, Repr

/-- The asynchronous callbacks that may fire around one invocation:
the timeout, `proc.done` (carrying the JSON parse of the accumulated
stdout, `none` when parsing threw), and `proc.fail` (carrying the error
text and its attempted JSON parse). -/
inductive ExecEvent where
  | timeoutFires
  | doneFires (parsed : Option ExecResponse)
  | failFires (errorStr : String) (parsedErr : Option ExecResponse)
deriving DecidableEq, Repr

/-- The closure state of one `executeCommand` invocation: the `settled`
flag, the recorded settlement, how many times a settlement actually
took effect, and whether `clearTimeout` ran. -/
structure ExecState where
  settled : Bool
  outcome : Option ExecOutcome
  settleCount : Nat
  timeoutCleared : Bool
deriving DecidableEq, Repr

/-- State before any callback fires. -/
def execInit : ExecState :=
  { settled := false, outcome := none, settleCount := 0, timeoutCleared := false }

/-- One callback firing.  Every handler begins with the `settled` guard
(`if (settled) return` / `if (!settled)`), so a callback that finds the
promise settled changes nothing; otherwise it sets `settled` and
resolves or rejects exactly once. -/
def execStep (s : ExecState) (e : ExecEvent) : ExecState :=
  match e with
  | .timeoutFires =>
    if s.settled then s
    else
      { s with settled := true, outcome := some .timeoutError,
               settleCount := s.settleCount + 1 }
  | .doneFires parsed =>
    if s.settled then s
    else
      let outcome :=
        match parsed with
        | some r =>
          if optTruthy r.error then
            ExecOutcome.apiError (r.error.getD "") r.code r.details
          else
            ExecOutcome.success
        | none => ExecOutcome.parseError
      { settled := true, outcome := some outcome,
        settleCount := s.settleCount + 1, timeoutCleared := true }
  | .failFires errorStr parsedErr =>
    if s.settled then s
    else
      let outcome :=
        match parsedErr with
        | some r =>
          if optTruthy r.error then
            ExecOutcome.apiError (r.error.getD "") r.code r.details
          else
            ExecOutcome.commandFailed
              (if !errorStr.isEmpty then errorStr else "Backend command failed")
        | none =>
          ExecOutcome.commandFailed
            (if !errorStr.isEmpty then errorStr else "Backend command failed")
      { settled := true, outcome := some outcome,
        settleCount := s.settleCount + 1, timeoutCleared := true }

/-- Running an arbitrary interleaving of callbacks. -/
def execRun (events : List ExecEvent) : ExecState :=
  events.foldl execStep execInit

/-! ## Streaming install/remove line handler
(`src/frontend/src/api/index.ts`, `installPackage` lines 432–521 and
`removePackage` lines 524–613; their stream/done handlers are
line-for-line identical) -/

/-- A parsed NDJSON line as the stream handler reads it: the `type`,
`percentage`, `message`, `success`, `error`, `code` and `details` keys. -/
structure StreamJson where
  jtype : Option String := none
  percentage : Option Int := none
  message : Option String := none
  success : Bool := false
  error : Option String := none
  code : Option String := none
  details : Option String := none
deriving DecidableEq, Repr

/-- One complete line of the stream: whitespace-only lines are skipped
by the `!line.trim()` guard, lines that fail `JSON.parse` are silently
ignored, and the rest dispatch on their keys. -/
inductive LineItem where
  | blankLine
  | invalidLine
  | jsonLine (j : StreamJson)
deriving DecidableEq, Repr

/-- How the promise of a streaming invocation is settled. -/
inductive StreamOutcome where
  | resolved
  | rejected (message : String) (code : Option String) (details : Option String)
deriving DecidableEq, Repr

/-- The closure state of one streaming invocation: the `settled` flag,
the recorded settlement, and the `(percentage, message)` arguments of
each `onProgress` call made so far. -/
structure StreamState where
  settled : Bool
  outcome : Option StreamOutcome
  progressCalls : List (Option Int × Option String)
deriving DecidableEq, Repr

/-- State before any line is processed. -/
def streamInit : StreamState :=
  { settled := false, outcome := none, progressCalls := [] }

/-- Processing one complete line (the body of the `for` loop in the
`proc.stream` handler).  `hasCallback` is whether an `onProgress`
callback was supplied.  Progress lines always invoke the callback; a
line with truthy `success` resolves if not yet settled; a line with a
truthy `error` key rejects if not yet settled. -/
def streamLineStep (hasCallback : Bool) (s : StreamState) (item : LineItem) :
    StreamState :=
  match item with
  | .blankLine => s
  | .invalidLine => s
  | .jsonLine j =>
    let s1 :=
      if j.jtype = some "progress" ∧ hasCallback then
        { s with progressCalls := s.progressCalls ++ [(j.percentage, j.message)] }
      else s
    let s2 :=
      if j.success then
        if s1.settled then s1
        else { s1 with settled := true, outcome := some .resolved }
      else s1
    if optTruthy j.error then
      if s2.settled then s2
      else
        { s2 with settled := true,
                  outcome := some (.rejected (j.error.getD "") j.code j.details) }
    else s2

/-- The `proc.done` handler of `installPackage` / `removePackage`:
a normal process exit resolves the promise when nothing settled it. -/
def streamDoneStep (s : StreamState) : StreamState :=
  if !s.settled then { s with settled := true, outcome := some .resolved }
  else s

/-- `installPackage`: the stream handler over all complete lines,
followed by the `proc.done` handler. -/
def installPackageRun (hasCallback : Bool) (lines : List LineItem) : StreamState :=
  streamDoneStep (lines.foldl (streamLineStep hasCallback) streamInit)

/-- `removePackage`: its stream and done handlers are identical to
those of `installPackage`. -/
def removePackageRun (hasCallback : Bool) (lines : List LineItem) : StreamState :=
  streamDoneStep (lines.foldl (streamLineStep hasCallback) streamInit)

/-! ## Helper lemmas -/

lemma optTruthy_none : optTruthy none = false := rfl

lemma optTruthy_some (s : String) : optTruthy (some s) = !s.isEmpty := rfl

lemma isEmpty_false_of_ne (s : String) (h : s ≠ "") : s.isEmpty = false := by
  cases he : s.isEmpty
  · rfl
  · exact absurd ((String.isEmpty_iff s).mp he) h

lemma isEmpty_empty_str : ("" : String).isEmpty = true := rfl

/-! ## C6 — parse rule of the router -/

/-- C6 (amended): `parseLocationToRouter` is total (it is a Lean
function) and maps the empty path to the store state; a path whose
first segment is `"category"` and whose second segment is non-empty to
the category state of that segment, segments beyond the second ignored;
likewise `"app"` paths to the app state with a null selected package;
and every remaining shape — one segment, an empty second segment, or an
unknown first segment — to the store state. -/
theorem parse_location_characterization :
    (∀ opts, parseLocationToRouter ⟨[], opts⟩ = storeState) ∧
    (∀ id rest opts, id ≠ "" →
      parseLocationToRouter ⟨"category" :: id :: rest, opts⟩ = categoryState id) ∧
    (∀ name rest opts, name ≠ "" →
      parseLocationToRouter ⟨"app" :: name :: rest, opts⟩ = appState name) ∧
    (∀ seg1 opts, parseLocationToRouter ⟨[seg1], opts⟩ = storeState) ∧
    (∀ seg1 rest opts, parseLocationToRouter ⟨seg1 :: "" :: rest, opts⟩ = storeState) ∧
    (∀ seg1 rest opts, seg1 ≠ "category" → seg1 ≠ "app" →
      parseLocationToRouter ⟨seg1 :: rest, opts⟩ = storeState) := by
  refine ⟨fun opts => rfl, ?_, ?_, ?_, ?_, ?_⟩
  · intro id rest opts h
    simp [parseLocationToRouter, optTruthy_some, isEmpty_false_of_ne id h]
  · intro name rest opts h
    simp [parseLocationToRouter, optTruthy_some, isEmpty_false_of_ne name h]
  · intro seg1 opts
    simp [parseLocationToRouter, optTruthy_none]
  · intro seg1 rest opts
    simp [parseLocationToRouter, optTruthy_some, isEmpty_empty_str]
  · intro seg1 rest opts h1 h2
    cases rest with
    | nil => simp [parseLocationToRouter, optTruthy_none]
    | cons s2 t => simp [parseLocationToRouter, h1, h2]

/-- Witness for C6: concrete instances of the characterization. -/
theorem parse_location_characterization_witness :
    parseLocationToRouter ⟨["category", "navigation", "extra"], []⟩ =
      categoryState "navigation" ∧
    parseLocationToRouter ⟨["invalid"], []⟩ = storeState :=
  ⟨parse_location_characterization.2.1 "navigation" ["extra"] [] (by decide),
   parse_location_characterization.2.2.2.1 "invalid" []⟩

/-- Counterexample for C6 as stated: the claim sends every path other
than exactly two matching segments to the store state, but the code
ignores segments beyond the second, so `["category", "navigation",
"extra"]` parses to the category state, not the store state. -/
theorem parse_location_exact_shape_counterexample :
    parseLocationToRouter ⟨["category", "navigation", "extra"], []⟩ ≠
      claimParseExact ⟨["category", "navigation", "extra"], []⟩ ∧
    parseLocationToRouter ⟨["category", "navigation", "extra"], []⟩ =
      categoryState "navigation" ∧
    claimParseExact ⟨["category", "navigation", "extra"], []⟩ = storeState := by
  refine ⟨by decide, rfl, rfl⟩

/-! ## C1 — parse/build round trip -/

/-- C1 (amended): composing parse, build, parse is the identity on the
first parse for the store and category route shapes; for the app shape
the first parse yields `selectedPackage = null`, `buildLocationFromRouter`
then falls back to the store path, and the second parse yields the store
state.  The store/filter arguments passed to build do not affect the
result, since parsing reads only the path. -/
theorem roundtrip_parse_build_parse (loc : RouterLocation)
    (storeId : Option String) (fil : Option InstallFilter) :
    parseLocationToRouter (buildLocationFromRouter (parseLocationToRouter loc) storeId fil) =
      (if (parseLocationToRouter loc).route = Route.app then storeState
       else parseLocationToRouter loc) := by
  rcases loc with ⟨path, opts⟩
  cases path with
  | nil => simp [parseLocationToRouter, buildLocationFromRouter, storeState]
  | cons seg1 rest =>
    cases rest with
    | nil =>
      simp [parseLocationToRouter, buildLocationFromRouter, optTruthy_none, storeState]
    | cons seg2 t =>
      by_cases h2 : seg2 = ""
      · subst h2
        simp [parseLocationToRouter, buildLocationFromRouter, optTruthy_some,
          isEmpty_empty_str, storeState]
      · by_cases hc : seg1 = "category"
        · subst hc
          simp [parseLocationToRouter, buildLocationFromRouter, optTruthy_some,
            isEmpty_false_of_ne seg2 h2, categoryState, storeState]
        · by_cases ha : seg1 = "app"
          · subst ha
            simp [parseLocationToRouter, buildLocationFromRouter, optTruthy_some,
              isEmpty_false_of_ne seg2 h2, appState, storeState]
          · simp [parseLocationToRouter, buildLocationFromRouter, hc, ha, storeState]

/-- Counterexample for C1 as stated: for the app route shape the round
trip is not idempotent — the second parse yields the store state, not
the app state the first parse produced. -/
theorem roundtrip_app_counterexample :
    parseLocationToRouter
        (buildLocationFromRouter (parseLocationToRouter ⟨["app", "signalk-server"], []⟩)) =
      storeState ∧
    parseLocationToRouter ⟨["app", "signalk-server"], []⟩ = appState "signalk-server" ∧
    storeState ≠ appState "signalk-server" := by
  refine ⟨rfl, rfl, by decide⟩

/-! ## C4 — save is blocked by validation errors -/

/-- C4: `handleSave` first runs full validation; whenever the result is
non-empty, `onSave` is not called (payload `none`), the per-field errors
are surfaced as `validationErrors`, and the in-memory form values are
unchanged. -/
theorem save_blocked_on_validation_errors (schema : ConfigSchema) (st : FormState)
    (h : validateForm schema st.formValues ≠ []) :
    (handleSave schema st).2 = none ∧
    (handleSave schema st).1.formValues = st.formValues ∧
    (handleSave schema st).1.validationErrors = validateForm schema st.formValues := by
  simp [handleSave, h]

/-- Witness for C4: the spec scenario — `SERVER_NAME` required, edited
to the empty string — blocks the save. -/
theorem save_blocked_on_validation_errors_witness :
    validateForm
        ⟨"1", [⟨"general", "General", none,
          [⟨"SERVER_NAME", .string, "Server Name", none, none, true, none, none, none, none⟩]⟩]⟩
        [("SERVER_NAME", "")] ≠ [] ∧
    (handleSave
        ⟨"1", [⟨"general", "General", none,
          [⟨"SERVER_NAME", .string, "Server Name", none, none, true, none, none, none, none⟩]⟩]⟩
        ⟨[("SERVER_NAME", "")], []⟩).2 = none :=
  ⟨by decide,
   (save_blocked_on_validation_errors
      ⟨"1", [⟨"general", "General", none,
        [⟨"SERVER_NAME", .string, "Server Name", none, none, true, none, none, none, none⟩]⟩]⟩
      ⟨[("SERVER_NAME", "")], []⟩ (by decide)).1⟩

/-! ## C8 — strict integer validation -/

lemma digit_not_ws (c : Char) (h : c.isDigit = true) : c.isWhitespace = false := by
  cases hw : c.isWhitespace
  · rfl
  · exfalso
    simp [Char.isWhitespace] at hw
    rcases hw with ((rfl | rfl) | rfl) | rfl <;> exact absurd h (by decide)

lemma strictAux_not_allWS (l : List Char) (h : strictIntPatternAux l = true) :
    l.all Char.isWhitespace = false := by
  cases l with
  | nil => exact absurd h (by decide)
  | cons c rest =>
    by_cases hc : c = '-'
    · subst hc
      have hws : Char.isWhitespace '-' = false := by decide
      simp [List.all_cons, hws]
    · have hcd : c.isDigit = true := by
        simp only [strictIntPatternAux, if_neg hc, List.all_cons, Bool.and_eq_true] at h
        exact h.1
      simp [List.all_cons, digit_not_ws c hcd]

lemma strictIntPattern_facts (v : String) (h : strictIntPattern v = true) :
    v.isEmpty = false ∧ allWhitespace v = false := by
  constructor
  · cases he : v.isEmpty
    · rfl
    · have hv : v = "" := (String.isEmpty_iff v).mp he
      subst hv
      exact absurd h (by decide)
  · exact strictAux_not_allWS v.data h

/-- C8: for an integer-typed field, validation rejects every non-empty
value that fails the strict signed-integer pattern; and for a value
matching the pattern, with both bounds defined, validation passes
exactly when the parsed value lies in the closed interval `[min, max]`. -/
theorem integer_validation_strict (f : ConfigField) (v : String)
    (hty : f.type = FieldType.integer) :
    (v ≠ "" → strictIntPattern v = false → (validateField f v).isSome = true) ∧
    (∀ mn mx : Int, f.min = some mn → f.max = some mx → strictIntPattern v = true →
      (validateField f v = none ↔ mn ≤ parseIntStrict v ∧ parseIntStrict v ≤ mx)) := by
  constructor
  · intro hne hpat
    unfold validateField
    split_ifs with h1 h2 h3 h4 h5 h6 <;> try simp
    exact absurd ⟨hty, by simp [isEmpty_false_of_ne v hne], by simp [hpat]⟩ h2
  · intro mn mx hmin hmax hpat
    have hfacts := strictIntPattern_facts v hpat
    unfold validateField
    simp only [hmin, hmax]
    split_ifs with h1 h2 h3 h4 h5 h6
    · exfalso
      rcases h1.2 with h | h
      · rw [hfacts.1] at h; exact absurd h (by decide)
      · rw [hfacts.2] at h; exact absurd h (by decide)
    · exfalso
      rw [hpat] at h2
      exact absurd h2.2.2 (by decide)
    · have hlt := of_decide_eq_true h3.2.2
      simp only [Option.some_ne_none, false_iff]
      intro hcon
      omega
    · have hgt := of_decide_eq_true h4.2.2
      simp only [Option.some_ne_none, false_iff]
      intro hcon
      omega
    · exfalso
      rw [hty] at h5
      exact absurd h5.1 (by decide)
    · exfalso
      rw [hty] at h6
      exact absurd h6.1 (by decide)
    · have hmn : ¬(parseIntStrict v < mn) := fun hlt =>
        h3 ⟨hty, by simp [hfacts.1], by simp [hlt]⟩
      have hmx : ¬(mx < parseIntStrict v) := fun hgt =>
        h4 ⟨hty, by simp [hfacts.1], by simp [hgt]⟩
      simp only [true_iff]
      omega

/-- Witness for C8: the spec examples — `"123"` accepted within
`[1, 65535]`, `"123abc"` rejected. -/
theorem integer_validation_strict_witness :
    validateField
        ⟨"PORT", .integer, "Port", none, some "3000", false, none, some 1, some 65535, none⟩
        "123" = none ∧
    (validateField
        ⟨"PORT", .integer, "Port", none, some "3000", false, none, some 1, some 65535, none⟩
        "123abc").isSome = true :=
  ⟨((integer_validation_strict
      ⟨"PORT", .integer, "Port", none, some "3000", false, none, some 1, some 65535, none⟩
      "123" rfl).2 1 65535 rfl rfl (by decide)).mpr (by decide),
   (integer_validation_strict
      ⟨"PORT", .integer, "Port", none, some "3000", false, none, some 1, some 65535, none⟩
      "123abc" rfl).1 (by decide) (by decide)⟩

/-! ## C3 — merging config over schema defaults -/

lemma lookupCV_append_ne (vs : ConfigValues) (k' v : String) (k : String)
    (h : k' ≠ k) : lookupCV (vs ++ [(k', v)]) k = lookupCV vs k := by
  induction vs with
  | nil => simp [lookupCV, h]
  | cons p t ih =>
    rcases p with ⟨pk, pv⟩
    by_cases hp : pk = k
    · simp [lookupCV, hp]
    · simp [lookupCV, hp, ih]

lemma lookupCV_append_some (vs : ConfigValues) (k v w : String) (k' : String)
    (h : lookupCV vs k = some w) : lookupCV (vs ++ [(k', v)]) k = some w := by
  induction vs with
  | nil => simp [lookupCV] at h
  | cons p t ih =>
    rcases p with ⟨pk, pv⟩
    by_cases hp : pk = k
    · simp [lookupCV, hp] at h ⊢
      exact h
    · simp [lookupCV, hp] at h ⊢
      exact ih h

lemma lookupCV_append_none (vs : ConfigValues) (k v : String)
    (h : lookupCV vs k = none) : lookupCV (vs ++ [(k, v)]) k = some v := by
  induction vs with
  | nil => simp [lookupCV]
  | cons p t ih =>
    rcases p with ⟨pk, pv⟩
    by_cases hp : pk = k
    · simp [lookupCV, hp] at h
    · simp [lookupCV, hp] at h ⊢
      exact ih h

lemma mergeStep_lookup_ne (vals : ConfigValues) (f : ConfigField) (k : String)
    (h : f.id ≠ k) : lookupCV (mergeStep vals f) k = lookupCV vals k := by
  unfold mergeStep
  split_ifs with hcond
  · exact lookupCV_append_ne vals f.id (f.default.getD "") k h
  · rfl

lemma mergeStep_lookup_self (vals : ConfigValues) (f : ConfigField) :
    lookupCV (mergeStep vals f) f.id =
      (lookupCV vals f.id).orElse (fun _ => f.default) := by
  unfold mergeStep
  rcases hv : lookupCV vals f.id with _ | w
  · rcases hd : f.default with _ | d
    · rw [if_neg (by simp)]
      rw [hv]
      simp [Option.orElse]
    · rw [if_pos ⟨rfl, by simp⟩]
      rw [lookupCV_append_none vals f.id ((some d).getD "") hv]
      simp [Option.orElse]
  · rw [if_neg (by simp), hv]
    simp [Option.orElse]

lemma foldl_mergeStep_lookup_absent (fs : List ConfigField) (vals : ConfigValues)
    (k : String) (h : ∀ f ∈ fs, f.id ≠ k) :
    lookupCV (fs.foldl mergeStep vals) k = lookupCV vals k := by
  induction fs generalizing vals with
  | nil => rfl
  | cons g t ih =>
    rw [List.foldl_cons, ih (mergeStep vals g) (fun f hf => h f (List.mem_cons_of_mem g hf)),
      mergeStep_lookup_ne vals g k (h g (List.mem_cons_self g t))]

lemma foldl_mergeStep_lookup (fs : List ConfigField) (vals : ConfigValues)
    (f : ConfigField) (hmem : f ∈ fs) (hnd : (fs.map (·.id)).Nodup) :
    lookupCV (fs.foldl mergeStep vals) f.id =
      (lookupCV vals f.id).orElse (fun _ => f.default) := by
  induction fs generalizing vals with
  | nil => exact absurd hmem (List.not_mem_nil f)
  | cons g t ih =>
    rw [List.map_cons, List.nodup_cons] at hnd
    rcases List.mem_cons.mp hmem with rfl | hmem'
    · rw [List.foldl_cons,
        foldl_mergeStep_lookup_absent t (mergeStep vals f) f.id
          (fun f' hf' hid => hnd.1 (hid ▸ List.mem_map_of_mem (·.id) hf')),
        mergeStep_lookup_self]
    · have hgne : g.id ≠ f.id := fun hid =>
        hnd.1 (hid ▸ List.mem_map_of_mem (·.id) hmem')
      rw [List.foldl_cons, ih (mergeStep vals g) hmem' hnd.2,
        mergeStep_lookup_ne vals g f.id hgne]

lemma foldl_mergeStep_mem (fs : List ConfigField) (vals : ConfigValues)
    (kv : String × String) (h : kv ∈ fs.foldl mergeStep vals) :
    kv ∈ vals ∨ kv.1 ∈ fs.map (·.id) := by
  induction fs generalizing vals with
  | nil => exact Or.inl h
  | cons g t ih =>
    rw [List.foldl_cons] at h
    rcases ih (mergeStep vals g) h with hm | hm
    · unfold mergeStep at hm
      split_ifs at hm with hcond
      · rcases List.mem_append.mp hm with hm' | hm'
        · exact Or.inl hm'
        · right
          rw [List.mem_singleton.mp hm']
          exact List.mem_cons_self g.id _
      · exact Or.inl hm
    · exact Or.inr (List.mem_cons_of_mem g.id hm)

lemma mergeDefaults_eq_foldl (config : ConfigValues) (schema : ConfigSchema) :
    mergeDefaults config schema = (schemaFields schema).foldl mergeStep config := by
  unfold mergeDefaults schemaFields
  induction schema.groups generalizing config with
  | nil => rfl
  | cons g t ih => rw [List.foldl_cons, List.foldr_cons, List.foldl_append, ih]

/-- C3 (amended): for a schema whose field ids are distinct, the merged
initial mapping gives every schema field its explicit config entry, or
the field's default when the config entry is absent and a default is
declared — a field with neither stays absent from the mapping (the
empty string is substituted only at render/validation time via
`formValues[field.id] || ''`) — and every entry of the merged mapping is
either an entry of the config (config keys outside the schema are
retained, not dropped) or a defaulted schema field. -/
theorem mergeDefaults_field_values :
    (∀ (config : ConfigValues) (schema : ConfigSchema) (f : ConfigField),
      f ∈ schemaFields schema → (fieldIds schema).Nodup →
      lookupCV (mergeDefaults config schema) f.id =
        (lookupCV config f.id).orElse (fun _ => f.default)) ∧
    (∀ (config : ConfigValues) (schema : ConfigSchema) (kv : String × String),
      kv ∈ mergeDefaults config schema → kv ∈ config ∨ kv.1 ∈ fieldIds schema) := by
  constructor
  · intro config schema f hmem hnd
    rw [mergeDefaults_eq_foldl]
    exact foldl_mergeStep_lookup (schemaFields schema) config f hmem hnd
  · intro config schema kv h
    rw [mergeDefaults_eq_foldl] at h
    exact foldl_mergeStep_mem (schemaFields schema) config kv h

/-- Witness for C3 (amended): a field missing from the config takes its
declared default. -/
theorem mergeDefaults_field_values_witness :
    lookupCV
        (mergeDefaults []
          ⟨"1", [⟨"general", "General", none,
            [⟨"PORT", .integer, "Port", none, some "3000", false, none,
              some 1, some 65535, none⟩]⟩]⟩)
        "PORT" = some "3000" := by
  have := mergeDefaults_field_values.1 []
    ⟨"1", [⟨"general", "General", none,
      [⟨"PORT", .integer, "Port", none, some "3000", false, none,
        some 1, some 65535, none⟩]⟩]⟩
    ⟨"PORT", .integer, "Port", none, some "3000", false, none,
      some 1, some 65535, none⟩
    (by decide) (by decide)
  rw [this]
  decide

/-- Counterexample for C3 as stated: the initializer spreads `config`
first and never removes keys, so a config key outside the schema stays
in the merged mapping ("no extra keys" fails); and a schema field with
no config entry and no default gets no entry at all, not the empty
string. -/
theorem mergeDefaults_extra_key_counterexample :
    "EXTRA" ∈ keysCV
        (mergeDefaults [("EXTRA", "x")]
          ⟨"1", [⟨"general", "General", none,
            [⟨"F", .string, "F", none, none, false, none, none, none, none⟩]⟩]⟩) ∧
    "EXTRA" ∉ fieldIds
        ⟨"1", [⟨"general", "General", none,
          [⟨"F", .string, "F", none, none, false, none, none, none, none⟩]⟩]⟩ ∧
    lookupCV
        (mergeDefaults [("EXTRA", "x")]
          ⟨"1", [⟨"general", "General", none,
            [⟨"F", .string, "F", none, none, false, none, none, none, none⟩]⟩]⟩)
        "F" = none := by
  refine ⟨by decide, by decide, by decide⟩

/-! ## C7 — single-token `--key=value` argument encoding -/

/-- C7: every optional parameter the gateway passes to `filter-packages`
or `list-categories` is one single token of the shape `--key=value`
(never a `--key` token followed by a separate value token), and each
provided parameter contributes exactly one such token. -/
theorem gateway_args_single_token :
    (∀ (params : FilterParams) (a : String), a ∈ filterPackagesArgs params →
      ∃ k v, k ∈ ["store", "repo", "category", "tab", "search", "limit"] ∧
        a = (("--" ++ k) ++ "=") ++ v) ∧
    (∀ (storeId : Option String) (a : String), a ∈ listCategoriesArgs storeId →
      ∃ v, a = (("--" ++ "store") ++ "=") ++ v) ∧
    (∀ params : FilterParams, (filterPackagesArgs params).length =
      (if optTruthy params.store_id then 1 else 0) +
      (if optTruthy params.repository_id then 1 else 0) +
      (if optTruthy params.category_id then 1 else 0) +
      (if params.tab ≠ none then 1 else 0) +
      (if optTruthy params.search_query then 1 else 0) +
      (if params.limit ≠ none then 1 else 0)) := by
  refine ⟨?_, ?_, ?_⟩
  · intro params a ha
    unfold filterPackagesArgs at ha
    simp only [List.mem_append] at ha
    rcases ha with ((((ha | ha) | ha) | ha) | ha) | ha
    · refine ⟨"store", params.store_id.getD "", by decide, ?_⟩
      have : (("--" ++ "store") ++ "=") = "--store=" := by decide
      rw [this]
      revert ha
      split_ifs <;> simp_all
    · refine ⟨"repo", params.repository_id.getD "", by decide, ?_⟩
      have : (("--" ++ "repo") ++ "=") = "--repo=" := by decide
      rw [this]
      revert ha
      split_ifs <;> simp_all
    · refine ⟨"category", params.category_id.getD "", by decide, ?_⟩
      have : (("--" ++ "category") ++ "=") = "--category=" := by decide
      rw [this]
      revert ha
      split_ifs <;> simp_all
    · refine ⟨"tab", (params.tab.getD .installed).asString, by decide, ?_⟩
      have : (("--" ++ "tab") ++ "=") = "--tab=" := by decide
      rw [this]
      revert ha
      rcases params.tab with _ | t <;> simp_all
    · refine ⟨"search", params.search_query.getD "", by decide, ?_⟩
      have : (("--" ++ "search") ++ "=") = "--search=" := by decide
      rw [this]
      revert ha
      split_ifs <;> simp_all
    · refine ⟨"limit", toString (params.limit.getD 0), by decide, ?_⟩
      have : (("--" ++ "limit") ++ "=") = "--limit=" := by decide
      rw [this]
      revert ha
      rcases params.limit with _ | n <;> simp_all
  · intro storeId a ha
    unfold listCategoriesArgs at ha
    refine ⟨storeId.getD "", ?_⟩
    have : (("--" ++ "store") ++ "=") = "--store=" := by decide
    rw [this]
    revert ha
    split_ifs <;> simp_all
  · intro params
    unfold filterPackagesArgs
    rcases params with ⟨st, re, ca, tb, se, li⟩
    simp only [List.length_append]
    rcases tb with _ | t <;> rcases li with _ | n <;>
      split_ifs <;> simp_all

/-- Witness for C7: a dash-prefixed search value stays glued to its key
in one token. -/
theorem gateway_args_single_token_witness :
    "--search=-test" ∈ filterPackagesArgs { search_query := some "-test" } ∧
    (∃ k v, k ∈ ["store", "repo", "category", "tab", "search", "limit"] ∧
      "--search=-test" = (("--" ++ k) ++ "=") ++ v) :=
  ⟨by decide,
   gateway_args_single_token.1 { search_query := some "-test" } "--search=-test" (by decide)⟩

/-! ## C5 — the `settled` guard of `executeCommand` -/

lemma execStep_preserves (s : ExecState) (e : ExecEvent)
    (h1 : s.settled = false → s.settleCount = 0) (h2 : s.settleCount ≤ 1) :
    ((execStep s e).settled = false → (execStep s e).settleCount = 0) ∧
      (execStep s e).settleCount ≤ 1 := by
  cases e <;> cases hs : s.settled
  all_goals first
    | simp [execStep, hs, h1 hs]
    | (simp [execStep, hs]; exact h2)

lemma execRun_aux (events : List ExecEvent) (s : ExecState)
    (h1 : s.settled = false → s.settleCount = 0) (h2 : s.settleCount ≤ 1) :
    (events.foldl execStep s).settleCount ≤ 1 := by
  induction events generalizing s with
  | nil => exact h2
  | cons e t ih =>
    rw [List.foldl_cons]
    exact ih (execStep s e) (execStep_preserves s e h1 h2).1
      (execStep_preserves s e h1 h2).2

/-- C5: for every interleaving of the timeout, completion and failure
callbacks of one `executeCommand` invocation, at most one settlement
(success resolution, error rejection, or timeout rejection) ever takes
effect, and any callback firing after the promise is settled is a
no-op. -/
theorem executeCommand_settles_at_most_once :
    (∀ events : List ExecEvent, (execRun events).settleCount ≤ 1) ∧
    (∀ (s : ExecState) (e : ExecEvent), s.settled = true → execStep s e = s) := by
  constructor
  · intro events
    exact execRun_aux events execInit (fun _ => rfl) (by decide)
  · intro s e h
    cases e <;> simp [execStep, h]

/-- Witness for C5: a timeout firing after completion changes nothing,
and a done/timeout race settles exactly once. -/
theorem executeCommand_settles_at_most_once_witness :
    execStep { settled := true, outcome := some .success, settleCount := 1,
               timeoutCleared := true } .timeoutFires =
      { settled := true, outcome := some .success, settleCount := 1,
        timeoutCleared := true } ∧
    (execRun [.doneFires (some {}), .timeoutFires]).settleCount ≤ 1 :=
  ⟨executeCommand_settles_at_most_once.2
      { settled := true, outcome := some .success, settleCount := 1,
        timeoutCleared := true } .timeoutFires rfl,
   executeCommand_settles_at_most_once.1 [.doneFires (some {}), .timeoutFires]⟩

/-! ## C9 — request-sequencing guard for store-level fetches -/

/-- C9: each store-level fetch is tagged `++loadRequestId.current`, so
tags increase strictly with each issued fetch; and a success or failure
response whose tag differs from the latest issued id is discarded — the
entire context, application state included, is left unchanged. -/
theorem store_fetch_guard :
    (∀ s : StoreFetchState, (issueStoreFetch s).1 = s.latestId + 1 ∧
      (issueStoreFetch s).2.latestId = s.latestId + 1) ∧
    (∀ (s : StoreFetchState) (rid : Nat) (resp : GetStoreDataResponse)
        (cf : InstallFilter) (cs : String), rid ≠ s.latestId →
      respondStoreSuccess s rid resp cf cs = s) ∧
    (∀ (s : StoreFetchState) (rid : Nat) (err : String), rid ≠ s.latestId →
      respondStoreFailure s rid err = s) := by
  refine ⟨fun s => ⟨rfl, rfl⟩, ?_, ?_⟩
  · intro s rid resp cf cs h
    simp [respondStoreSuccess, h]
  · intro s rid err h
    simp [respondStoreFailure, h]

/-- Witness for C9: a concrete superseded response (tag 1 after a
second fetch made the latest id 2) is dropped without touching state. -/
theorem store_fetch_guard_witness :
    respondStoreSuccess
        ⟨2, ⟨[], [], [], some "halos-marine", none, .all, "", 0, false, true, none⟩⟩
        1 ⟨⟨"halos-marine", "HaLOS Marine", none, none, none⟩, [], []⟩ .all "" =
      ⟨2, ⟨[], [], [], some "halos-marine", none, .all, "", 0, false, true, none⟩⟩ :=
  store_fetch_guard.2.1
    ⟨2, ⟨[], [], [], some "halos-marine", none, .all, "", 0, false, true, none⟩⟩
    1 ⟨⟨"halos-marine", "HaLOS Marine", none, none, none⟩, [], []⟩ .all ""
    (by decide)

/-! ## C10 — a clean exit with no explicit success record resolves -/

lemma streamRun_clean (cb : Bool) (lines : List LineItem) (s : StreamState)
    (hs : s.settled = false) (ho : s.outcome = none)
    (h : ∀ j, LineItem.jsonLine j ∈ lines → j.success = false ∧ optTruthy j.error = false) :
    (lines.foldl (streamLineStep cb) s).settled = false ∧
      (lines.foldl (streamLineStep cb) s).outcome = none := by
  induction lines generalizing s with
  | nil => exact ⟨hs, ho⟩
  | cons item t ih =>
    rw [List.foldl_cons]
    have hstep : (streamLineStep cb s item).settled = false ∧
        (streamLineStep cb s item).outcome = none := by
      cases item with
      | blankLine => exact ⟨hs, ho⟩
      | invalidLine => exact ⟨hs, ho⟩
      | jsonLine j =>
        have hj := h j (List.mem_cons_self _ _)
        simp only [streamLineStep, hj.1, hj.2, Bool.false_eq_true, if_false]
        split_ifs <;> exact ⟨hs, ho⟩
    exact ih (streamLineStep cb s item) hstep.1 hstep.2
      (fun j hj => h j (List.mem_cons_of_mem item hj))

/-- C10: if the external process of a streaming install or remove
completes normally without any line carrying a truthy `success` or a
truthy `error` key, the done handler resolves the promise — a clean
exit with no explicit success record is success, not an error. -/
theorem clean_exit_resolves (cb : Bool) (lines : List LineItem)
    (h : ∀ j, LineItem.jsonLine j ∈ lines → j.success = false ∧ optTruthy j.error = false) :
    (installPackageRun cb lines).outcome = some .resolved ∧
      (removePackageRun cb lines).outcome = some .resolved := by
  have hrun := streamRun_clean cb lines streamInit rfl rfl h
  unfold installPackageRun removePackageRun streamDoneStep
  rw [hrun.1]
  exact ⟨rfl, rfl⟩

/-- Witness for C10: a stream of one progress line, a blank line and an
unparseable line still resolves on process completion. -/
theorem clean_exit_resolves_witness :
    (installPackageRun true
        [.jsonLine { jtype := some "progress", percentage := some 50,
                     message := some "Installing" },
         .blankLine, .invalidLine]).outcome = some .resolved :=
  (clean_exit_resolves true
    [.jsonLine { jtype := some "progress", percentage := some 50,
                 message := some "Installing" },
     .blankLine, .invalidLine]
    (by
      intro j hj
      simp at hj
      subst hj
      exact ⟨rfl, rfl⟩)).1

/-! ## C2 — cache-backed filtering and the category axis -/

/-- C2 (amended): once a store's complete package set is cached and no
category is selected, install-status and search-query changes (and any
`loadPackages` with those parameters) are answered client-side from the
cache with no backend call, the view being the install-status filter
conjoined with the case-insensitive name/summary search; but whenever a
category id is in effect, `loadPackages` issues a backend
`filter-packages` call — client-side category filtering over the cached
`categories` lists is not implemented. -/
theorem cached_filter_client_side :
    (∀ prev : AppStateM, prev.allPackages ≠ [] →
      optTruthy prev.activeCategory = false →
      loadPackagesAction prev none =
        .clientSide (filterPackagesClientSide prev.allPackages
          prev.installFilter prev.searchQuery)) ∧
    (∀ (prev : AppStateM) (f : InstallFilter), prev.allPackages ≠ [] →
      optTruthy prev.activeCategory = false →
      setInstallFilterAction prev f =
        ({ prev with
            installFilter := f
            packages := filterPackagesClientSide prev.allPackages f prev.searchQuery
            totalPackageCount :=
              (filterPackagesClientSide prev.allPackages f prev.searchQuery).length },
         true)) ∧
    (∀ (prev : AppStateM) (q : String), prev.allPackages ≠ [] →
      optTruthy prev.activeCategory = false →
      setSearchQueryAction prev q =
        ({ prev with
            searchQuery := q
            packages := filterPackagesClientSide prev.allPackages prev.installFilter q
            totalPackageCount :=
              (filterPackagesClientSide prev.allPackages prev.installFilter q).length },
         true)) ∧
    (∀ (prev : AppStateM) (params : Option FilterParams),
      optTruthy (effectiveCategoryId prev params) = true →
      (loadPackagesAction prev params).isBackendCall = true) := by
  refine ⟨?_, ?_, ?_, ?_⟩
  · intro prev h1 h2
    have hcat : effectiveCategoryId prev none = prev.activeCategory := rfl
    have hstore : effectiveStoreId prev none = prev.activeStore := rfl
    unfold loadPackagesAction
    rw [if_pos ⟨h1, by rw [hstore], by rw [hcat, h2]; exact Bool.false_ne_true⟩]
  · intro prev f h1 h2
    unfold setInstallFilterAction
    rw [if_pos ⟨h1, by rw [h2]; exact Bool.false_ne_true⟩]
  · intro prev q h1 h2
    unfold setSearchQueryAction
    rw [if_pos ⟨h1, by rw [h2]; exact Bool.false_ne_true⟩]
  · intro prev params h
    unfold loadPackagesAction
    rw [if_neg (fun hc => absurd h (by simp [hc.2.2])),
      if_neg (fun hc => absurd h (by simp [hc.2]))]
    rfl

/-- Witness for C2 (amended): concrete instances — a warm cache with no
category answers an install-filter change client-side; a state with an
active category sends `loadPackages` to the backend. -/
theorem cached_filter_client_side_witness :
    (setInstallFilterAction
        ⟨[], [⟨"signalk-server", "2.8.0", "Signal K Server", "net", false, false,
          ["navigation"], none, none, none⟩], [], some "halos-marine", none, .all, "",
          1, false, false, none⟩ .available).2 = true ∧
    (loadPackagesAction
        ⟨[], [⟨"signalk-server", "2.8.0", "Signal K Server", "net", false, false,
          ["navigation"], none, none, none⟩], [], some "halos-marine",
          some "navigation", .all, "", 1, false, false, none⟩ none).isBackendCall = true :=
  ⟨by
    rw [cached_filter_client_side.2.1
      ⟨[], [⟨"signalk-server", "2.8.0", "Signal K Server", "net", false, false,
        ["navigation"], none, none, none⟩], [], some "halos-marine", none, .all, "",
        1, false, false, none⟩ .available (by decide) rfl],
   cached_filter_client_side.2.2.2
    ⟨[], [⟨"signalk-server", "2.8.0", "Signal K Server", "net", false, false,
      ["navigation"], none, none, none⟩], [], some "halos-marine",
      some "navigation", .all, "", 1, false, false, none⟩ none rfl⟩

/-- Counterexample for C2 as stated: with the store's complete package
set cached, selecting a category makes `loadPackages` issue a backend
`filter-packages` call instead of deriving the view from the cache, and
the in-process filter has no category clause at all. -/
theorem category_change_backend_counterexample :
    (loadPackagesAction
        ⟨[], [⟨"signalk-server", "2.8.0", "Signal K Server", "net", false, false,
          ["navigation"], none, none, none⟩], [], some "halos-marine",
          some "navigation", .all, "", 1, false, false, none⟩ none).isBackendCall = true := by
  decide

end CCApps
